import Mathlib

/-!
Verification development for the survey/evaluation web application.

The client pages are embedded shallowly: React component state becomes a
Lean structure, every event handler becomes a pure function from state to
state (paired with the list of HTTP write requests the handler issues),
and WebSocket pushes become an inductive message type processed by a step
function.  JavaScript `Record` objects are modelled as association lists
with JS-object get/set/delete semantics.
-/

namespace AIEval

/-- Lookup in a JS-object model (`obj[key]`): first binding wins. -/
def jsGet {K V : Type} [DecidableEq K] : List (K × V) → K → Option V
  | [], _ => none
  | (k, v) :: rest, key => if k = key then some v else jsGet rest key

/-- JS-object update (`{...obj, [key]: val}`): replace the existing
binding in place, or append a fresh one. -/
def jsSet {K V : Type} [DecidableEq K] : List (K × V) → K → V → List (K × V)
  | [], key, val => [(key, val)]
  | (k, v) :: rest, key, val =>
    if k = key then (k, val) :: rest else (k, v) :: jsSet rest key val

/-- JS-object deletion (`delete obj[key]`). -/
def jsDelete {K V : Type} [DecidableEq K] : List (K × V) → K → List (K × V)
  | [], _ => []
  | (k, v) :: rest, key =>
    if k = key then jsDelete rest key else (k, v) :: jsDelete rest key

theorem jsGet_jsSet_self {K V : Type} [DecidableEq K]
    (l : List (K × V)) (k : K) (v : V) : jsGet (jsSet l k v) k = some v := by
  induction l with
  | nil => simp [jsGet, jsSet]
  | cons head tail ih =>
    obtain ⟨hk, hv⟩ := head
    by_cases h : hk = k <;> simp [jsGet, jsSet, h, ih]

theorem jsGet_jsSet_other {K V : Type} [DecidableEq K]
    (l : List (K × V)) (k k' : K) (v : V) (hne : k ≠ k') :
    jsGet (jsSet l k v) k' = jsGet l k' := by
  induction l with
  | nil => simp [jsGet, jsSet, hne]
  | cons head tail ih =>
    obtain ⟨hk, hv⟩ := head
    by_cases h : hk = k <;> simp [jsGet, jsSet, h, ih]
    · subst h; simp [hne]

theorem jsGet_jsDelete_self {K V : Type} [DecidableEq K]
    (l : List (K × V)) (k : K) : jsGet (jsDelete l k) k = none := by
  induction l with
  | nil => simp [jsGet, jsDelete]
  | cons head tail ih =>
    obtain ⟨hk, hv⟩ := head
    by_cases h : hk = k <;> simp [jsGet, jsDelete, h, ih]

theorem jsGet_jsDelete_other {K V : Type} [DecidableEq K]
    (l : List (K × V)) (k k' : K) (hne : k ≠ k') :
    jsGet (jsDelete l k) k' = jsGet l k' := by
  induction l with
  | nil => simp [jsGet, jsDelete]
  | cons head tail ih =>
    obtain ⟨hk, hv⟩ := head
    by_cases h : hk = k <;> simp [jsGet, jsDelete, h, ih]
    · subst h; simp [hne]

/-! ## JavaScript number coercion

`Number(raw)` on the strings a `type="number"` input can deliver to
`handleCompositeScore`: the valid floating-point number grammar (sign,
digits, optional fractional part, optional `e`/`E` exponent with its own
sign), on which this model agrees with JavaScript exactly.  Forms that
grammar cannot produce (leading/trailing whitespace, `Infinity`,
hex/octal/binary prefixes) are mapped to NaN (`none`). -/

/-- Value of a digit string read in base 10. -/
def digitsVal (cs : List Char) : ℕ :=
  cs.foldl (fun a c => 10 * a + (c.toNat - 48)) 0

/-- Mantissa of a decimal numeral (`digits`, `digits.digits`,
`.digits`, `digits.`); `none` when malformed. -/
def decMantissa (cs : List Char) : Option ℚ :=
  let ip := cs.takeWhile (fun c => c ≠ '.')
  let rest := cs.dropWhile (fun c => c ≠ '.')
  match rest with
  | [] =>
    if ip.all Char.isDigit && !ip.isEmpty then
      some (digitsVal ip : ℚ)
    else
      none
  | _ :: fp =>
    if ip.all Char.isDigit && fp.all Char.isDigit && (!ip.isEmpty || !fp.isEmpty) then
      some ((digitsVal ip : ℚ) + (digitsVal fp : ℚ) / (10 : ℚ) ^ fp.length)
    else
      none

/-- Exponent part after `e`/`E`: optionally signed digits; `none` when
malformed. -/
def decExponent (cs : List Char) : Option ℤ :=
  let digits : List Char :=
    match cs with
    | '-' :: t => t
    | '+' :: t => t
    | t => t
  let esign : ℤ :=
    match cs with
    | '-' :: _ => -1
    | _ => 1
  if digits.all Char.isDigit && !digits.isEmpty then
    some (esign * (digitsVal digits : ℤ))
  else
    none

/-- Model of `Number(s)` on the number-input grammar; `none` models
NaN. -/
def jsNumber (s : String) : Option ℚ :=
  let body : List Char :=
    match s.data with
    | '-' :: t => t
    | '+' :: t => t
    | t => t
  let sign : ℚ :=
    match s.data with
    | '-' :: _ => -1
    | _ => 1
  let mant := body.takeWhile (fun c => c != 'e' && c != 'E')
  let erest := body.dropWhile (fun c => c != 'e' && c != 'E')
  match decMantissa mant with
  | none => none
  | some m =>
    match erest with
    | [] => some (sign * m)
    | _ :: ecs =>
      match decExponent ecs with
      | none => none
      | some e => some (sign * m * (10 : ℚ) ^ e)

example : jsNumber "150" = some 150 := by simp [jsNumber, decMantissa, digitsVal]
example : jsNumber "50" = some 50 := by simp [jsNumber, decMantissa, digitsVal]
example : jsNumber "abc" = none := by simp [jsNumber, decMantissa, digitsVal]
example : jsNumber "-3" = some (-3) := by simp [jsNumber, decMantissa, digitsVal]
example : jsNumber "1e2" = some 100 := by
  simp [jsNumber, decMantissa, decExponent, digitsVal]
  norm_num
example : jsNumber "1.5e2" = some 150 := by
  simp [jsNumber, decMantissa, decExponent, digitsVal]
  norm_num
example : jsNumber "2e-1" = some (1 / 5) := by
  simp [jsNumber, decMantissa, decExponent, digitsVal]
  norm_num
example : jsNumber "2e1" = some 20 := by
  simp [jsNumber, decMantissa, decExponent, digitsVal]
  norm_num
example : jsNumber "1e" = none := by simp [jsNumber, decMantissa, decExponent, digitsVal]

/-! ## Data model of the student survey page

State fields of `SurveyPage` that the handlers read or write.  The
presentational flags (`loading`, `savingSurvey`, `savingNote`,
`checkingAi`) and the fetched `config` are not consulted by the guarded
write paths and are omitted. -/

/-- One survey item's answer: `{frequency, skill, traits[]}`. -/
structure SurveyItemAnswer where
  frequency : String
  skill : String
  traits : List String
deriving DecidableEq

/-- The default used when an item has no stored answer yet
(`{ frequency: "", skill: "", traits: [] }`). -/
def EMPTY_ANSWER : SurveyItemAnswer := ⟨"", "", []⟩

/-- Model of `Partial<SurveyItemAnswer>`: each field optionally overridden. -/
structure AnswerPatch where
  frequency : Option String
  skill : Option String
  traits : Option (List String)
deriving DecidableEq

/-- The `{...existing, ...partial}` object spread. -/
def applyPatch (existing : SurveyItemAnswer) (p : AnswerPatch) : SurveyItemAnswer :=
  { frequency := p.frequency.getD existing.frequency
    skill := p.skill.getD existing.skill
    traits := p.traits.getD existing.traits }

/-- The composite-question state: `q1`/`q2` are row→choice objects, `q3`
maps stage name → metric name → numeric score. -/
structure Composite where
  q1 : List (String × String)
  q2 : List (String × String)
  q3 : List (String × List (String × ℚ))
deriving DecidableEq

/-- The mutable client state of the student survey page. -/
structure StudentPageState where
  answers : List (ℕ × SurveyItemAnswer)
  composite : Composite
  parentNote : String
  isLocked : Bool
  dirtySurvey : Bool
  dirtyNote : Bool
deriving DecidableEq

/-- One answer in a `PUT` body: `frequency || null`, `skill || null`. -/
structure SurveyItemPayload where
  survey_item_id : ℕ
  frequency : Option String
  skill : Option String
  traits : List String
deriving DecidableEq

/-- The HTTP write requests the pages can issue. -/
inductive Request where
  | putStudentSurvey (items : List SurveyItemPayload)
  | putStudentComposite (c : Composite)
  | putParentNote (content : String)
  | putLock (studentId : String) (value : Bool)
  | putTeacherSurvey (studentId : String) (items : List SurveyItemPayload)
  | putTeacherComposite (studentId : String) (c : Composite)
  | postTeacherReview (studentId : String) (selected : List String)
deriving DecidableEq

/-! ## Student-page handlers

Each handler returns the next client state together with the write
requests it issues.  `guardLocked` reads `lockedRef`, which mirrors the
`isLocked` state through an effect. -/

/-- Guard `guardLocked`: `true` means the edit is blocked (a toast is shown). -/
def guardLocked (s : StudentPageState) : Bool :=
  s.isLocked

/-- Handler `handleUpdateAnswer`: merge a partial answer into one item. -/
def handleUpdateAnswer (s : StudentPageState) (itemId : ℕ) (p : AnswerPatch) :
    StudentPageState × List Request :=
  if guardLocked s then (s, [])
  else
    let existing := (jsGet s.answers itemId).getD EMPTY_ANSWER
    ({ s with
        answers := jsSet s.answers itemId (applyPatch existing p)
        dirtySurvey := true }, [])

/-- Handler `handleTraitToggle`: toggle one trait for an item, capped at three
selections (`traits.length >= 3` rejects with a toast, returning the
previous state). -/
def handleTraitToggle (s : StudentPageState) (itemId : ℕ) (trait : String) :
    StudentPageState × List Request :=
  if guardLocked s then (s, [])
  else
    let existing := (jsGet s.answers itemId).getD EMPTY_ANSWER
    let traits := existing.traits
    if trait ∈ traits then
      ({ s with
          answers := jsSet s.answers itemId
            { existing with traits := traits.filter (fun t => t ≠ trait) }
          dirtySurvey := true }, [])
    else if traits.length ≥ 3 then
      (s, [])
    else
      ({ s with
          answers := jsSet s.answers itemId
            { existing with traits := traits ++ [trait] }
          dirtySurvey := true }, [])

/-- The `"q1" | "q2"` question-key union type. -/
inductive QKey
  | q1
  | q2
deriving DecidableEq

/-- Handler `handleCompositeRadio`: set one row's choice of `q1`/`q2`. -/
def handleCompositeRadio (s : StudentPageState) (k : QKey) (rowKey value : String) :
    StudentPageState × List Request :=
  if guardLocked s then (s, [])
  else
    let c := s.composite
    let c' :=
      match k with
      | QKey.q1 => { c with q1 := jsSet c.q1 rowKey value }
      | QKey.q2 => { c with q2 := jsSet c.q2 rowKey value }
    ({ s with composite := c', dirtySurvey := true }, [])

/-- Handler `handleCompositeScore`: `numeric = raw ? Number(raw) : NaN`; a
non-empty `raw` that is NaN or outside `[0, 100]` is rejected with a
toast before any state change; an empty `raw` deletes the metric entry;
otherwise the parsed score is stored.  (The `getD 0` fallback is
unreachable: a non-empty `raw` surviving the validity test parsed to
some rational.) -/
def handleCompositeScore (s : StudentPageState) (stage metric raw : String) :
    StudentPageState × List Request :=
  if guardLocked s then (s, [])
  else
    let numeric : Option ℚ := if raw = "" then none else jsNumber raw
    let invalid : Bool :=
      raw != "" &&
        (match numeric with
          | none => true
          | some q => decide (q < 0) || decide (q > 100))
    if invalid then (s, [])
    else
      let stageObj := (jsGet s.composite.q3 stage).getD []
      let nextStage :=
        if raw = "" then jsDelete stageObj metric
        else jsSet stageObj metric (numeric.getD 0)
      ({ s with
          composite := { s.composite with q3 := jsSet s.composite.q3 stage nextStage }
          dirtySurvey := true }, [])

/-- The request body built by `saveSurvey`/`handleSubmit`: answers with
any content, empty strings sent as `null`. -/
def surveyPayload (answers : List (ℕ × SurveyItemAnswer)) : List SurveyItemPayload :=
  (answers.filter (fun kv =>
      kv.2.frequency != "" || kv.2.skill != "" || !kv.2.traits.isEmpty)).map
    (fun kv =>
      { survey_item_id := kv.1
        frequency := if kv.2.frequency = "" then none else some kv.2.frequency
        skill := if kv.2.skill = "" then none else some kv.2.skill
        traits := kv.2.traits })

/-- Handler `saveSurvey`: blocked entirely when locked; otherwise it PUTs the
survey payload and the composite state.  The post-response re-sync of
`answers`/`composite`/`isLocked` comes from server data outside the
client model and is not represented. -/
def saveSurvey (s : StudentPageState) : StudentPageState × List Request :=
  if guardLocked s then (s, [])
  else
    (s, [Request.putStudentSurvey (surveyPayload s.answers),
         Request.putStudentComposite s.composite])

/-- Handler `saveParentNote`: blocked when locked; a note longer than 300
characters is rejected with a toast and no request; otherwise the note
is PUT and the dirty flag cleared on success. -/
def saveParentNote (s : StudentPageState) : StudentPageState × List Request :=
  if guardLocked s then (s, [])
  else if s.parentNote.length > 300 then (s, [])
  else ({ s with dirtyNote := false }, [Request.putParentNote s.parentNote])

/-- The student-initiated edit and save operations of the survey page. -/
inductive StudentOp where
  | updateAnswer (itemId : ℕ) (p : AnswerPatch)
  | traitToggle (itemId : ℕ) (trait : String)
  | compositeRadio (k : QKey) (rowKey value : String)
  | compositeScore (stage metric raw : String)
  | surveySave
  | parentNoteSave
deriving DecidableEq

/-- Dispatch one student operation. -/
def applyOp (s : StudentPageState) : StudentOp → StudentPageState × List Request
  | StudentOp.updateAnswer i p => handleUpdateAnswer s i p
  | StudentOp.traitToggle i t => handleTraitToggle s i t
  | StudentOp.compositeRadio k r v => handleCompositeRadio s k r v
  | StudentOp.compositeScore st m raw => handleCompositeScore s st m raw
  | StudentOp.surveySave => saveSurvey s
  | StudentOp.parentNoteSave => saveParentNote s

/-! ## Live channel messages on the student session -/

/-- A WebSocket delivery on the `student:{id}` channel: either data on
which `JSON.parse` throws, or a parsed payload with its `event` string,
the `Boolean(...)` coercion of `is_locked`, and `student_id`. -/
inductive WsMsg where
  | malformed
  | json (event : String) (is_locked : Bool) (student_id : String)
deriving DecidableEq

/-- Handler `socket.onmessage` in `StudentLayout` combined with the SurveyPage
`student-lock-changed` window-event listener: a `lock_changed` payload
updates the page lock flag; `survey_overridden` only raises a toast;
any other event, and malformed JSON (caught by `try`), changes
nothing. -/
def processMessage (s : StudentPageState) : WsMsg → StudentPageState
  | WsMsg.malformed => s
  | WsMsg.json e locked _ =>
    if e = "lock_changed" then { s with isLocked := locked }
    else if e = "survey_overridden" then s
    else s

/-- One observable step of a student session: a pushed message or a
student-initiated operation. -/
inductive Step where
  | push (m : WsMsg)
  | act (o : StudentOp)
deriving DecidableEq

/-- Run a student session trace, collecting all issued write requests. -/
def runSteps : StudentPageState → List Step → StudentPageState × List Request
  | s, [] => (s, [])
  | s, Step.push m :: rest => runSteps (processMessage s m) rest
  | s, Step.act o :: rest =>
    let r := applyOp s o
    let r' := runSteps r.1 rest
    (r'.1, r.2 ++ r'.2)

/-- Whether a step delivers a `lock_changed` payload with
`is_locked = false`. -/
def isUnlockStep : Step → Bool
  | Step.push (WsMsg.json e locked _) => e == "lock_changed" && !locked
  | _ => false

/-! ## Survey completeness check (`ensureSurveyComplete`) -/

/-- A configured survey item (`{ id, prompt }`). -/
structure ConfigItem where
  id : ℕ
  prompt : String
deriving DecidableEq

/-- A configured survey section; the categories are presentational. -/
structure SurveySection where
  major_category : String
  minor_category : String
  items : List ConfigItem
deriving DecidableEq

/-- The survey configuration; fields not read by the checked handlers
(`description`, `composite_questions`, ...) are omitted. -/
structure SurveyConfig where
  traits : List String
  sections : List SurveySection
deriving DecidableEq

/-- One answered item of `GET /students/me/survey`. -/
structure StudentSurveyItem where
  survey_item_id : ℕ
  frequency : Option String
  skill : Option String
deriving DecidableEq

/-- The `GET /students/me/survey` response body (`id: string | null`). -/
structure StudentSurveyResponse where
  id : Option String
  items : List StudentSurveyItem
deriving DecidableEq

/-- JS truthiness of a nullable string (`null` and `""` are falsy). -/
def truthyStr : Option String → Bool
  | none => false
  | some s => s != ""

/-- The `expectedIds` set collected from every section's items
(a JS `Set`, so duplicates count once). -/
def expectedIdsOf (conf : SurveyConfig) : List ℕ :=
  ((conf.sections.flatMap SurveySection.items).map ConfigItem.id).dedup

/-- The `answeredMap` built by `answeredMap.set(item.survey_item_id, item)`. -/
def answeredMapOf (items : List StudentSurveyItem) : List (ℕ × StudentSurveyItem) :=
  items.foldl (fun m it => jsSet m it.survey_item_id it) []

/-- Check `ensureSurveyComplete`: `false` on a missing configuration or a
failed fetch; `true` when nothing is configured; otherwise requires a
truthy record id, a non-empty answer list, no missing and no extra item
ids, and a truthy frequency and skill on every answered item. -/
def ensureSurveyComplete (config : Option SurveyConfig)
    (fetched : Except Unit (Option StudentSurveyResponse)) : Bool :=
  match config with
  | none => false
  | some conf =>
    match fetched with
    | Except.error _ => false
    | Except.ok surveyData =>
      let expectedIds := expectedIdsOf conf
      let expectedCount := expectedIds.length
      let answeredItems := (surveyData.map StudentSurveyResponse.items).getD []
      if expectedCount = 0 then true
      else if !truthyStr (surveyData.bind StudentSurveyResponse.id)
          || answeredItems.isEmpty then false
      else
        let answeredMap := answeredMapOf answeredItems
        let hasEmptyField :=
          answeredItems.any (fun it => !truthyStr it.frequency || !truthyStr it.skill)
        let hasMissingItem :=
          decide (expectedCount > 0) &&
            (expectedIds.any (fun i => (jsGet answeredMap i).isNone)
              || answeredMap.length != expectedCount)
        if hasMissingItem || hasEmptyField then false else true

/-- Navigation `goReview`/`goAi`: navigation to the review and AI pages happens
only after the unsaved-changes confirm (when needed), a passing
`ensureSurveyComplete`, and a successful teacher-review fetch. -/
def goReviewNavigates (dirtyConfirmOk surveyOk reviewFetchOk : Bool) : Bool :=
  dirtyConfirmOk && surveyOk && reviewFetchOk

/-! ## Teacher pages -/

/-- Handler `toggleReviewTrait` on the teacher student page: toggle one keyword,
capped at six selections (a seventh is rejected with a toast, keeping
the previous selection). -/
def toggleReviewTrait (prev : List String) (trait : String) : List String :=
  if trait ∈ prev then prev.filter (fun item => item ≠ trait)
  else if prev.length ≥ 6 then prev
  else prev ++ [trait]

/-- The teacher student-detail page state read by its save handlers. -/
structure TeacherDetailState where
  studentId : Option String
  answers : List (ℕ × SurveyItemAnswer)
  composite : Composite
  selectedTraits : List String
  lockStatus : Bool
deriving DecidableEq

/-- Handler `handleSubmit` on the teacher student page: requires a route student
id and at least one selected keyword, then issues the three writes
(survey rewrite, composite adjustment, review submission) in one batch.
No check of `lockStatus` appears on this path; the response-driven
re-sync of local state is server data and not modelled. -/
def handleSubmit (st : TeacherDetailState) : List Request :=
  match st.studentId with
  | none => []
  | some sid =>
    if st.selectedTraits.isEmpty then []
    else
      [Request.putTeacherSurvey sid (surveyPayload st.answers),
       Request.putTeacherComposite sid st.composite,
       Request.postTeacherReview sid st.selectedTraits]

/-- Handler `handleToggleLock`: PUT the requested lock value for the routed
student; the current `lockStatus` is not consulted. -/
def handleToggleLock (st : TeacherDetailState) (nextStatus : Bool) : List Request :=
  match st.studentId with
  | none => []
  | some sid => [Request.putLock sid nextStatus]

/-- A roster row of the teacher dashboard (fields its save handler
reads). -/
structure TeacherStudentRow where
  student_id : String
  grade_band : String
  selected_traits : List String
deriving DecidableEq

/-- Handler `handleSave` on the teacher dashboard: requires the student row to
exist and the selection to be non-empty, then POSTs the review.  The
row carries no lock information and none is checked. -/
def handleSave (students : List TeacherStudentRow)
    (selections : List (String × List String)) (studentId : String) : List Request :=
  match students.find? (fun row => row.student_id == studentId) with
  | none => []
  | some _ =>
    let selection := (jsGet selections studentId).getD []
    if selection.isEmpty then []
    else [Request.postTeacherReview studentId selection]

/-! ## Channel scoping -/

/-- The authenticated teacher user fields used to build the
subscription key. -/
structure TeacherUser where
  school_name : String
  grade : ℕ
  class_no : String
deriving DecidableEq

/-- Key `classKey` in the teacher dashboard subscribe effect:
`` `${school}-${classNo}` `` — the user's grade is not part of the
key.  The teacher student page builds the same key inline. -/
def classKey (u : TeacherUser) : String :=
  u.school_name ++ "-" ++ u.class_no

/-- A student as known to the server (owning class coordinates). -/
structure StudentInfo where
  student_id : String
  school_name : String
  grade : ℕ
  class_no : String
deriving DecidableEq

/-- Modelled from the spec: the server-side Live Notification Channel is
missing from the repository (only the browser subscribers appear).  The
spec's scoping rule — an event about a student is published on that
student's class channel and handed to every session subscribed to the
channel with the same key — is modelled as key equality, with the class
key composed exactly as the subscribing frontend composes it
(`${school}-${classNo}`). -/
def deliveredToClassChannel (subscriberKey : String) (st : StudentInfo) : Bool :=
  subscriberKey == st.school_name ++ "-" ++ st.class_no

/-! ## Lock coordinator -/

/-- Actor roles. -/
inductive Role
  | student
  | teacher
  | admin
deriving DecidableEq

/-- The per-student stored record fields the lock transition touches. -/
structure SubmissionRecord where
  student_id : String
  is_locked : Bool
deriving DecidableEq

/-- A `lock_changed` payload, carrying the new flag value. -/
structure LockEvent where
  student_id : String
  is_locked : Bool
deriving DecidableEq

/-- Modelled from the spec: the server-side Lock Coordinator is not in
the repository (the frontend only issues `PUT .../lock` via
`handleToggleLock`).  Per the spec, the transition is allowed for
teacher/admin actors only, sets `is_locked` to the requested value,
emits a `lock_changed` event scoped to the student, and succeeds even
when the flag already holds that value. -/
def lockTransition (actor : Role) (r : SubmissionRecord) (value : Bool) :
    Except String (SubmissionRecord × LockEvent) :=
  match actor with
  | Role.student => Except.error "forbidden"
  | _ => Except.ok ({ r with is_locked := value }, ⟨r.student_id, value⟩)

/-! ## Shared lemmas -/

theorem applyOp_locked (s : StudentPageState) (op : StudentOp) (h : s.isLocked = true) :
    applyOp s op = (s, []) := by
  cases op <;>
    simp [applyOp, handleUpdateAnswer, handleTraitToggle, handleCompositeRadio,
      handleCompositeScore, saveSurvey, saveParentNote, guardLocked, h]

theorem processMessage_locked (s : StudentPageState) (m : WsMsg)
    (h : s.isLocked = true) (hm : isUnlockStep (Step.push m) = false) :
    processMessage s m = s := by
  cases m with
  | malformed => rfl
  | json e l sid =>
    simp only [isUnlockStep, Bool.and_eq_false_iff] at hm
    by_cases he : e = "lock_changed"
    · have hl : l = true := by
        rcases hm with hm | hm
        · rw [he] at hm; simp at hm
        · simp at hm; exact hm
      obtain ⟨ans, comp, note, lk, d1, d2⟩ := s
      simp only [StudentPageState.isLocked] at h
      subst h hl
      simp [processMessage, he]
    · simp [processMessage, he]

theorem runSteps_locked (steps : List Step) :
    ∀ s : StudentPageState, s.isLocked = true →
      (∀ st ∈ steps, isUnlockStep st = false) →
      runSteps s steps = (s, []) := by
  induction steps with
  | nil => intro s _ _; rfl
  | cons head rest ih =>
    intro s h hall
    cases head with
    | push m =>
      have hm := hall (Step.push m) (by simp)
      rw [runSteps, processMessage_locked s m h hm]
      exact ih s h (fun st hst => hall st (by simp [hst]))
    | act o =>
      have h1 := applyOp_locked s o h
      have h2 := ih s h (fun st hst => hall st (by simp [hst]))
      simp [runSteps, h1, h2]

/-! ## Claims -/

/-- C1: while the lock status is true, every student-initiated edit or
save operation of the survey page (answer update, trait toggle,
composite radio, composite score, survey save, parent-note save) leaves
the answers, composite state and parent note unchanged and issues no
write request; repeating the operation while locked still changes
nothing. -/
theorem C1_locked_student_writes_are_noops (s : StudentPageState) (op : StudentOp)
    (h : s.isLocked = true) :
    applyOp s op = (s, []) ∧ applyOp (applyOp s op).1 op = (s, []) := by
  have h1 := applyOp_locked s op h
  refine ⟨h1, ?_⟩
  rw [h1]
  exact applyOp_locked s op h

theorem C1_witness :
    applyOp ⟨[], ⟨[], [], []⟩, "", true, false, false⟩ StudentOp.surveySave =
        (⟨[], ⟨[], [], []⟩, "", true, false, false⟩, []) ∧
      applyOp (applyOp ⟨[], ⟨[], [], []⟩, "", true, false, false⟩ StudentOp.surveySave).1
          StudentOp.surveySave =
        (⟨[], ⟨[], [], []⟩, "", true, false, false⟩, []) :=
  C1_locked_student_writes_are_noops ⟨[], ⟨[], [], []⟩, "", true, false, false⟩
    StudentOp.surveySave rfl

/-- C9: an incoming WebSocket message whose data fails to parse as JSON,
or whose payload carries neither `lock_changed` nor `survey_overridden`,
is processed to completion (the handler is a total function) and leaves
the lock status and all other client state unchanged. -/
theorem C9_unrecognized_pushes_ignored (s : StudentPageState) (e : String)
    (l : Bool) (sid : String)
    (h1 : e ≠ "lock_changed") (h2 : e ≠ "survey_overridden") :
    processMessage s WsMsg.malformed = s ∧ processMessage s (WsMsg.json e l sid) = s := by
  exact ⟨rfl, by simp [processMessage, h1, h2]⟩

theorem C9_witness :
    processMessage ⟨[], ⟨[], [], []⟩, "", false, false, false⟩ WsMsg.malformed =
        ⟨[], ⟨[], [], []⟩, "", false, false, false⟩ ∧
      processMessage ⟨[], ⟨[], [], []⟩, "", false, false, false⟩
          (WsMsg.json "ping" true "A") =
        ⟨[], ⟨[], [], []⟩, "", false, false, false⟩ :=
  C9_unrecognized_pushes_ignored ⟨[], ⟨[], [], []⟩, "", false, false, false⟩
    "ping" true "A" (by decide) (by decide)

/-- C4: delivering `{event: "lock_changed", is_locked: true}` on the
student channel turns the page lock on; from then on, until a
`lock_changed` with `is_locked = false` is delivered, no student edit or
save operation issues a write request (nor changes state); after the
unlock event is delivered the next survey save issues its write
requests. -/
theorem C4_lock_push_blocks_until_unlock (s : StudentPageState) (sid sid' : String)
    (steps : List Step) (h : ∀ st ∈ steps, isUnlockStep st = false) :
    (processMessage s (WsMsg.json "lock_changed" true sid)).isLocked = true ∧
      runSteps (processMessage s (WsMsg.json "lock_changed" true sid)) steps =
        (processMessage s (WsMsg.json "lock_changed" true sid), []) ∧
      (applyOp
          (processMessage
            (runSteps (processMessage s (WsMsg.json "lock_changed" true sid)) steps).1
            (WsMsg.json "lock_changed" false sid'))
          StudentOp.surveySave).2 ≠ [] := by
  have h1 : (processMessage s (WsMsg.json "lock_changed" true sid)).isLocked = true := by
    simp [processMessage]
  have h2 := runSteps_locked steps (processMessage s (WsMsg.json "lock_changed" true sid)) h1 h
  refine ⟨h1, h2, ?_⟩
  rw [h2]
  simp [processMessage, applyOp, saveSurvey, guardLocked]

theorem C4_witness :
    (processMessage ⟨[], ⟨[], [], []⟩, "", false, false, false⟩
        (WsMsg.json "lock_changed" true "A")).isLocked = true ∧
      runSteps
          (processMessage ⟨[], ⟨[], [], []⟩, "", false, false, false⟩
            (WsMsg.json "lock_changed" true "A"))
          [Step.act StudentOp.surveySave, Step.push WsMsg.malformed] =
        (processMessage ⟨[], ⟨[], [], []⟩, "", false, false, false⟩
          (WsMsg.json "lock_changed" true "A"), []) ∧
      (applyOp
          (processMessage
            (runSteps
              (processMessage ⟨[], ⟨[], [], []⟩, "", false, false, false⟩
                (WsMsg.json "lock_changed" true "A"))
              [Step.act StudentOp.surveySave, Step.push WsMsg.malformed]).1
            (WsMsg.json "lock_changed" false "A"))
          StudentOp.surveySave).2 ≠ [] :=
  C4_lock_push_blocks_until_unlock ⟨[], ⟨[], [], []⟩, "", false, false, false⟩ "A" "A"
    [Step.act StudentOp.surveySave, Step.push WsMsg.malformed] (by decide)

/-- C5: a parent note longer than 300 characters makes the save
operation issue no write request and leave the state (in particular the
note) unchanged; every parent-note write request ever issued carries a
content of at most 300 characters. -/
theorem C5_parent_note_length_gate (s : StudentPageState)
    (h : 300 < s.parentNote.length) :
    saveParentNote s = (s, []) ∧
      ∀ s' : StudentPageState, ∀ r ∈ (saveParentNote s').2,
        ∃ c, r = Request.putParentNote c ∧ c.length ≤ 300 := by
  constructor
  · by_cases hl : guardLocked s
    · simp [saveParentNote, hl]
    · simp [saveParentNote, hl, h]
  · intro s' r hr
    by_cases hl : guardLocked s'
    · simp [saveParentNote, hl] at hr
    · by_cases hlen : 300 < s'.parentNote.length
      · simp [saveParentNote, hl, hlen] at hr
      · refine ⟨s'.parentNote, ?_, by omega⟩
        simpa [saveParentNote, hl, hlen] using hr

theorem C5_witness :
    saveParentNote ⟨[], ⟨[], [], []⟩, String.mk (List.replicate 301 'a'), false, false, false⟩ =
        (⟨[], ⟨[], [], []⟩, String.mk (List.replicate 301 'a'), false, false, false⟩, []) ∧
      ∀ s' : StudentPageState, ∀ r ∈ (saveParentNote s').2,
        ∃ c, r = Request.putParentNote c ∧ c.length ≤ 300 :=
  C5_parent_note_length_gate
    ⟨[], ⟨[], [], []⟩, String.mk (List.replicate 301 'a'), false, false, false⟩
    (by show 300 < (List.replicate 301 'a').length; rw [List.length_replicate]; omega)

/-! ## C2: composite score validation -/

/-- The score stored for a stage and metric (`q3[stage]?.[metric]`). -/
def q3Get (c : Composite) (stage metric : String) : Option ℚ :=
  (jsGet c.q3 stage).bind (fun stObj => jsGet stObj metric)

/-- Every score present in `q3` lies in `[0, 100]`. -/
def q3InRange (c : Composite) : Prop :=
  ∀ stage metric q, q3Get c stage metric = some q → 0 ≤ q ∧ q ≤ 100

theorem q3InRange_of_update (c : Composite) (stage : String)
    (nextStage : List (String × ℚ)) (hr : q3InRange c)
    (hnext : ∀ m q, jsGet nextStage m = some q →
      jsGet ((jsGet c.q3 stage).getD []) m = some q ∨ (0 ≤ q ∧ q ≤ 100)) :
    q3InRange { c with q3 := jsSet c.q3 stage nextStage } := by
  intro st m q hq
  simp only [q3Get] at hq
  by_cases hst : stage = st
  · subst hst
    rw [jsGet_jsSet_self] at hq
    simp only [Option.some_bind] at hq
    rcases hnext m q hq with hold | hok
    · cases hso : jsGet c.q3 stage with
      | none => rw [hso] at hold; simp [jsGet] at hold
      | some l =>
        rw [hso] at hold
        simp only [Option.getD_some] at hold
        exact hr stage m q (by simp [q3Get, hso, hold])
    · exact hok
  · rw [jsGet_jsSet_other _ _ _ _ hst] at hq
    exact hr st m q hq

theorem handleCompositeScore_preserves_range (s : StudentPageState)
    (stage metric raw : String) (hr : q3InRange s.composite) :
    q3InRange (handleCompositeScore s stage metric raw).1.composite := by
  by_cases hl : guardLocked s
  · simpa [handleCompositeScore, hl] using hr
  · by_cases hraw : raw = ""
    · subst hraw
      have hcomp :
          (handleCompositeScore s stage metric "").1.composite =
            { s.composite with
                q3 := jsSet s.composite.q3 stage
                  (jsDelete ((jsGet s.composite.q3 stage).getD []) metric) } := by
        simp [handleCompositeScore, hl]
      rw [hcomp]
      refine q3InRange_of_update _ _ _ hr ?_
      intro m q hq
      by_cases hm : metric = m
      · subst hm; rw [jsGet_jsDelete_self] at hq; exact absurd hq (by simp)
      · rw [jsGet_jsDelete_other _ _ _ hm] at hq; exact Or.inl hq
    · rcases hnum : jsNumber raw with _ | q0
      · have hres : handleCompositeScore s stage metric raw = (s, []) := by
          simp [handleCompositeScore, hl, hraw, hnum]
        simpa [hres] using hr
      · by_cases hq0 : q0 < 0 ∨ 100 < q0
        · have hres : handleCompositeScore s stage metric raw = (s, []) := by
            rcases hq0 with hq0 | hq0 <;>
              simp [handleCompositeScore, hl, hraw, hnum, hq0]
          simpa [hres] using hr
        · push_neg at hq0
          obtain ⟨hq1, hq2⟩ := hq0
          have hn1 : ¬q0 < 0 := not_lt.mpr hq1
          have hn2 : ¬(100 : ℚ) < q0 := not_lt.mpr hq2
          have hcomp :
              (handleCompositeScore s stage metric raw).1.composite =
                { s.composite with
                    q3 := jsSet s.composite.q3 stage
                      (jsSet ((jsGet s.composite.q3 stage).getD []) metric q0) } := by
            simp [handleCompositeScore, hl, hraw, hnum, hn1, hn2]
          rw [hcomp]
          refine q3InRange_of_update _ _ _ hr ?_
          intro m q hq
          by_cases hm : metric = m
          · subst hm
            rw [jsGet_jsSet_self] at hq
            obtain rfl : q0 = q := by simpa using hq
            exact Or.inr ⟨hq1, hq2⟩
          · rw [jsGet_jsSet_other _ _ _ _ hm] at hq; exact Or.inl hq

/-- C2: for every stage, metric and raw string passed to
`handleCompositeScore` (unlocked page): a non-empty string that parses
to NaN or to a number outside `[0, 100]` leaves the state — in
particular `q3` — exactly as before and issues no request; a number
within `[0, 100]` is stored under `q3[stage][metric]`; an empty string
removes the metric entry; and scores present in `q3` stay within
`[0, 100]`.  In particular a write of `150` is rejected unchanged. -/
theorem C2_composite_score_validation (s : StudentPageState) (stage metric raw : String)
    (h : s.isLocked = false) :
    (raw ≠ "" → jsNumber raw = none →
        handleCompositeScore s stage metric raw = (s, [])) ∧
      (∀ q, raw ≠ "" → jsNumber raw = some q → (q < 0 ∨ 100 < q) →
        handleCompositeScore s stage metric raw = (s, [])) ∧
      (∀ q, raw ≠ "" → jsNumber raw = some q → 0 ≤ q → q ≤ 100 →
        q3Get (handleCompositeScore s stage metric raw).1.composite stage metric = some q) ∧
      (raw = "" →
        q3Get (handleCompositeScore s stage metric raw).1.composite stage metric = none) ∧
      (q3InRange s.composite →
        q3InRange (handleCompositeScore s stage metric raw).1.composite) := by
  have hl : ¬guardLocked s = true := by simp [guardLocked, h]
  refine ⟨?_, ?_, ?_, ?_, ?_⟩
  · intro hraw hnum
    simp [handleCompositeScore, hl, hraw, hnum]
  · intro q hraw hnum hq0
    rcases hq0 with hq0 | hq0 <;> simp [handleCompositeScore, hl, hraw, hnum, hq0]
  · intro q hraw hnum hq1 hq2
    have hn1 : ¬q < 0 := not_lt.mpr hq1
    have hn2 : ¬(100 : ℚ) < q := not_lt.mpr hq2
    have hcomp :
        (handleCompositeScore s stage metric raw).1.composite =
          { s.composite with
              q3 := jsSet s.composite.q3 stage
                (jsSet ((jsGet s.composite.q3 stage).getD []) metric q) } := by
      simp [handleCompositeScore, hl, hraw, hnum, hn1, hn2]
    rw [hcomp]
    simp [q3Get, jsGet_jsSet_self]
  · intro hraw
    subst hraw
    have hcomp :
        (handleCompositeScore s stage metric "").1.composite =
          { s.composite with
              q3 := jsSet s.composite.q3 stage
                (jsDelete ((jsGet s.composite.q3 stage).getD []) metric) } := by
      simp [handleCompositeScore, hl]
    rw [hcomp]
    simp [q3Get, jsGet_jsSet_self, jsGet_jsDelete_self]
  · exact handleCompositeScore_preserves_range s stage metric raw

theorem C2_witness :
    handleCompositeScore ⟨[], ⟨[], [], []⟩, "", false, false, false⟩ "阶段1" "坚毅担责" "150" =
      (⟨[], ⟨[], [], []⟩, "", false, false, false⟩, []) :=
  (C2_composite_score_validation ⟨[], ⟨[], [], []⟩, "", false, false, false⟩
      "阶段1" "坚毅担责" "150" rfl).2.1 150 (by decide)
    (by simp [jsNumber, decMantissa, digitsVal]) (Or.inr (by norm_num))

/-! ## C3: selection caps -/

/-- Every stored answer keeps at most three traits. -/
def boundedTraits (answers : List (ℕ × SurveyItemAnswer)) : Prop :=
  ∀ i a, jsGet answers i = some a → a.traits.length ≤ 3

theorem handleTraitToggle_boundedTraits (s : StudentPageState) (i : ℕ) (t : String)
    (h : boundedTraits s.answers) : boundedTraits (handleTraitToggle s i t).1.answers := by
  by_cases hl : guardLocked s
  · have hres : (handleTraitToggle s i t).1 = s := by simp [handleTraitToggle, hl]
    rw [hres]; exact h
  · have hexb : ((jsGet s.answers i).getD EMPTY_ANSWER).traits.length ≤ 3 := by
      cases hso : jsGet s.answers i with
      | none => simp [EMPTY_ANSWER]
      | some a => simpa using h i a hso
    by_cases hmem : t ∈ ((jsGet s.answers i).getD EMPTY_ANSWER).traits
    · have hres : (handleTraitToggle s i t).1.answers =
          jsSet s.answers i
            { (jsGet s.answers i).getD EMPTY_ANSWER with
                traits :=
                  ((jsGet s.answers i).getD EMPTY_ANSWER).traits.filter
                    (fun x => x ≠ t) } := by
        simp [handleTraitToggle, hl, hmem]
      rw [hres]
      intro j b hj
      by_cases hij : i = j
      · subst hij
        rw [jsGet_jsSet_self] at hj
        obtain rfl : _ = b := Option.some.inj hj
        exact le_trans (List.length_filter_le _ _) hexb
      · rw [jsGet_jsSet_other _ _ _ _ hij] at hj
        exact h j b hj
    · by_cases hlen : 3 ≤ ((jsGet s.answers i).getD EMPTY_ANSWER).traits.length
      · have hres : (handleTraitToggle s i t).1 = s := by
          simp [handleTraitToggle, hl, hmem, hlen]
        rw [hres]; exact h
      · have hres : (handleTraitToggle s i t).1.answers =
            jsSet s.answers i
              { (jsGet s.answers i).getD EMPTY_ANSWER with
                  traits := ((jsGet s.answers i).getD EMPTY_ANSWER).traits ++ [t] } := by
          simp [handleTraitToggle, hl, hmem, hlen]
        rw [hres]
        intro j b hj
        by_cases hij : i = j
        · subst hij
          rw [jsGet_jsSet_self] at hj
          obtain rfl : _ = b := Option.some.inj hj
          simp only [List.length_append, List.length_singleton]
          omega
        · rw [jsGet_jsSet_other _ _ _ _ hij] at hj
          exact h j b hj

/-- A sequence of student trait toggles applied in order. -/
def runTraitToggles (s : StudentPageState) (ts : List (ℕ × String)) : StudentPageState :=
  ts.foldl (fun st kv => (handleTraitToggle st kv.1 kv.2).1) s

theorem runTraitToggles_bounded (ts : List (ℕ × String)) :
    ∀ s : StudentPageState, boundedTraits s.answers →
      boundedTraits (runTraitToggles s ts).answers := by
  induction ts with
  | nil => intro s h; exact h
  | cons head rest ih =>
    intro s h
    exact ih _ (handleTraitToggle_boundedTraits s head.1 head.2 h)

theorem toggleReviewTrait_le (prev : List String) (t : String) (h : prev.length ≤ 6) :
    (toggleReviewTrait prev t).length ≤ 6 := by
  by_cases hmem : t ∈ prev
  · simp only [toggleReviewTrait, hmem, if_true]
    exact le_trans (List.length_filter_le _ _) h
  · by_cases hlen : 6 ≤ prev.length
    · simpa [toggleReviewTrait, hmem, hlen] using h
    · have hres : toggleReviewTrait prev t = prev ++ [t] := by
        simp [toggleReviewTrait, hmem, hlen]
      rw [hres]
      simp only [List.length_append, List.length_singleton]
      omega

/-- A sequence of teacher-review keyword toggles applied in order. -/
def runReviewToggles (prev : List String) (ts : List String) : List String :=
  ts.foldl toggleReviewTrait prev

theorem runReviewToggles_le (ts : List String) :
    ∀ prev : List String, prev.length ≤ 6 → (runReviewToggles prev ts).length ≤ 6 := by
  induction ts with
  | nil => intro prev h; exact h
  | cons head rest ih =>
    intro prev h
    exact ih _ (toggleReviewTrait_le prev head h)

/-- C3: toggling an unselected trait when three are already selected
for the item, or an unselected keyword when six are already selected in
the teacher review, leaves the prior selection intact; and starting
within the limits, any sequence of toggles keeps every item's trait
list at three entries at most and the review selection at six at
most. -/
theorem C3_selection_caps (s : StudentPageState) (i : ℕ) (t : String)
    (prev rsel : List String) (ts : List (ℕ × String)) (rts : List String)
    (hmem : t ∉ ((jsGet s.answers i).getD EMPTY_ANSWER).traits)
    (hlen : 3 ≤ ((jsGet s.answers i).getD EMPTY_ANSWER).traits.length)
    (hmem' : t ∉ prev) (hlen' : 6 ≤ prev.length)
    (hb : boundedTraits s.answers) (hsel : rsel.length ≤ 6) :
    handleTraitToggle s i t = (s, []) ∧
      toggleReviewTrait prev t = prev ∧
      boundedTraits (runTraitToggles s ts).answers ∧
      (runReviewToggles rsel rts).length ≤ 6 := by
  refine ⟨?_, ?_, runTraitToggles_bounded ts s hb, runReviewToggles_le rts rsel hsel⟩
  · by_cases hl : guardLocked s
    · simp [handleTraitToggle, hl]
    · simp [handleTraitToggle, hl, hmem, hlen]
  · simp [toggleReviewTrait, hmem', hlen']

theorem C3_witness :
    handleTraitToggle
        ⟨[(1, ⟨"", "", ["a", "b", "c"]⟩)], ⟨[], [], []⟩, "", false, false, false⟩ 1 "d" =
      (⟨[(1, ⟨"", "", ["a", "b", "c"]⟩)], ⟨[], [], []⟩, "", false, false, false⟩, []) ∧
      toggleReviewTrait ["k1", "k2", "k3", "k4", "k5", "k6"] "d" =
        ["k1", "k2", "k3", "k4", "k5", "k6"] ∧
      boundedTraits
        (runTraitToggles
          ⟨[(1, ⟨"", "", ["a", "b", "c"]⟩)], ⟨[], [], []⟩, "", false, false, false⟩
          [(1, "d")]).answers ∧
      (runReviewToggles [] ["x"]).length ≤ 6 :=
  C3_selection_caps
    ⟨[(1, ⟨"", "", ["a", "b", "c"]⟩)], ⟨[], [], []⟩, "", false, false, false⟩ 1 "d"
    ["k1", "k2", "k3", "k4", "k5", "k6"] [] [(1, "d")] ["x"]
    (by decide) (by decide) (by decide) (by decide)
    (by
      intro i a h
      simp only [jsGet] at h
      split at h
      · cases h; decide
      · exact absurd h (by simp [jsGet]))
    (by decide)

/-! ## C6: channel scoping -/

/-- C6 counterexample: the subscription key the roster pages build is
`${school}-${classNo}` with no grade component, so a teacher of grade 3
and a student of grade 4 who share school `"第一小学"` and class number
`"2"` land on the same channel: the teacher session receives a
`lock_changed`/`survey_overridden` event for a student outside its
class, contradicting both the claimed key composition (school, grade
and class number) and the claimed exact-class scope. -/
theorem C6_counterexample :
    classKey ⟨"第一小学", 3, "2"⟩ = "第一小学-2" ∧
      deliveredToClassChannel (classKey ⟨"第一小学", 3, "2"⟩)
        ⟨"B", "第一小学", 4, "2"⟩ = true ∧
      StudentInfo.grade ⟨"B", "第一小学", 4, "2"⟩ ≠
        TeacherUser.grade ⟨"第一小学", 3, "2"⟩ := by
  refine ⟨?_, ?_, ?_⟩ <;> decide

/-- C6 amended: the roster subscription key is composed of the school
and the class number only — it does not depend on the teacher's grade —
and (delivery modelled from the spec as key matching) the session
receives the events of every student whose school and class number
equal its own, whatever that student's grade. -/
theorem C6_amended_scope (u : TeacherUser) (g : ℕ) (s : StudentInfo)
    (h1 : s.school_name = u.school_name) (h2 : s.class_no = u.class_no) :
    classKey { u with grade := g } = classKey u ∧
      deliveredToClassChannel (classKey u) s = true := by
  refine ⟨rfl, ?_⟩
  simp [deliveredToClassChannel, classKey, h1, h2]

theorem C6_amended_witness :
    classKey ⟨"一小", 9, "1"⟩ = classKey ⟨"一小", 3, "1"⟩ ∧
      deliveredToClassChannel (classKey ⟨"一小", 3, "1"⟩) ⟨"S", "一小", 3, "1"⟩ = true :=
  C6_amended_scope ⟨"一小", 3, "1"⟩ 9 ⟨"S", "一小", 3, "1"⟩ rfl rfl

/-! ## C7: teacher writes ignore the lock -/

/-- C7: the teacher save handlers read no lock state: `handleSubmit`
issues the same three write requests (survey rewrite, composite
adjustment, review submission) whatever `lockStatus` holds, the
dashboard `handleSave` POSTs the review with no lock in sight, and
`handleToggleLock` PUTs the lock value unconditionally. -/
theorem C7_teacher_writes_ignore_lock (st : TeacherDetailState) (b : Bool) (sid : String)
    (rows : List TeacherStudentRow) (sels : List (String × List String)) (sid' : String)
    (h1 : st.studentId = some sid) (h2 : st.selectedTraits ≠ [])
    (h3 : (rows.find? (fun row => row.student_id == sid')).isSome = true)
    (h4 : (jsGet sels sid').getD [] ≠ []) :
    handleSubmit { st with lockStatus := b } = handleSubmit st ∧
      handleSubmit st =
        [Request.putTeacherSurvey sid (surveyPayload st.answers),
         Request.putTeacherComposite sid st.composite,
         Request.postTeacherReview sid st.selectedTraits] ∧
      handleToggleLock { st with lockStatus := b } true = [Request.putLock sid true] ∧
      handleSave rows sels sid' =
        [Request.postTeacherReview sid' ((jsGet sels sid').getD [])] := by
  refine ⟨rfl, ?_, ?_, ?_⟩
  · simp [handleSubmit, h1, h2]
  · simp [handleToggleLock, h1]
  · obtain ⟨row, hrow⟩ := Option.isSome_iff_exists.mp h3
    simp [handleSave, hrow, h4]

theorem C7_witness :
    handleSubmit ⟨some "A", [], ⟨[], [], []⟩, ["坚持"], true⟩ =
      handleSubmit ⟨some "A", [], ⟨[], [], []⟩, ["坚持"], false⟩ ∧
      handleSubmit ⟨some "A", [], ⟨[], [], []⟩, ["坚持"], false⟩ =
        [Request.putTeacherSurvey "A" (surveyPayload []),
         Request.putTeacherComposite "A" ⟨[], [], []⟩,
         Request.postTeacherReview "A" ["坚持"]] ∧
      handleToggleLock ⟨some "A", [], ⟨[], [], []⟩, ["坚持"], true⟩ true =
        [Request.putLock "A" true] ∧
      handleSave [⟨"A", "low", []⟩] [("A", ["坚持"])] "A" =
        [Request.postTeacherReview "A" ((jsGet [("A", ["坚持"])] "A").getD [])] :=
  C7_teacher_writes_ignore_lock ⟨some "A", [], ⟨[], [], []⟩, ["坚持"], false⟩ true "A"
    [⟨"A", "low", []⟩] [("A", ["坚持"])] "A" rfl (by decide) (by decide) (by decide)

/-! ## C8: lock transition idempotence -/

/-- C8: the (spec-modelled) lock transition is idempotent for a
teacher/admin actor: locking an already-locked record succeeds again,
leaves the record locked, and emits a `lock_changed` event with
`is_locked = true` on both calls; unlocking an already-unlocked record
is symmetric; neither redundant call errors. -/
theorem C8_lock_idempotent (actor : Role) (r : SubmissionRecord)
    (h : actor ≠ Role.student) :
    (∃ r1 e1 r2 e2,
      lockTransition actor r true = Except.ok (r1, e1) ∧
        lockTransition actor r1 true = Except.ok (r2, e2) ∧
        r1.is_locked = true ∧ r2.is_locked = true ∧
        e1.is_locked = true ∧ e2.is_locked = true ∧ r2 = r1) ∧
      (∃ u1 f1 u2 f2,
        lockTransition actor r false = Except.ok (u1, f1) ∧
          lockTransition actor u1 false = Except.ok (u2, f2) ∧
          u1.is_locked = false ∧ u2.is_locked = false ∧
          f1.is_locked = false ∧ f2.is_locked = false ∧ u2 = u1) := by
  cases actor with
  | student => exact absurd rfl h
  | teacher =>
    exact ⟨⟨_, _, _, _, rfl, rfl, rfl, rfl, rfl, rfl, rfl⟩,
      ⟨_, _, _, _, rfl, rfl, rfl, rfl, rfl, rfl, rfl⟩⟩
  | admin =>
    exact ⟨⟨_, _, _, _, rfl, rfl, rfl, rfl, rfl, rfl, rfl⟩,
      ⟨_, _, _, _, rfl, rfl, rfl, rfl, rfl, rfl, rfl⟩⟩

theorem C8_witness :
    (∃ r1 e1 r2 e2,
      lockTransition Role.teacher ⟨"A", true⟩ true = Except.ok (r1, e1) ∧
        lockTransition Role.teacher r1 true = Except.ok (r2, e2) ∧
        r1.is_locked = true ∧ r2.is_locked = true ∧
        e1.is_locked = true ∧ e2.is_locked = true ∧ r2 = r1) ∧
      (∃ u1 f1 u2 f2,
        lockTransition Role.teacher ⟨"A", true⟩ false = Except.ok (u1, f1) ∧
          lockTransition Role.teacher u1 false = Except.ok (u2, f2) ∧
          u1.is_locked = false ∧ u2.is_locked = false ∧
          f1.is_locked = false ∧ f2.is_locked = false ∧ u2 = u1) :=
  C8_lock_idempotent Role.teacher ⟨"A", true⟩ (by decide)

/-! ## C10: survey completeness -/

/-- The key list of a JS-object model. -/
def jsKeys {K V : Type} (m : List (K × V)) : List K := m.map Prod.fst

theorem jsGet_isSome_iff_mem_keys {K V : Type} [DecidableEq K]
    (m : List (K × V)) (k : K) :
    (jsGet m k).isSome = true ↔ k ∈ jsKeys m := by
  induction m with
  | nil => simp [jsGet, jsKeys]
  | cons head tail ih =>
    obtain ⟨k0, v0⟩ := head
    by_cases h : k0 = k
    · subst h; simp [jsGet, jsKeys]
    · have h' : ¬k = k0 := fun e => h e.symm
      simp [jsGet, jsKeys, h, h', ih]

theorem jsKeys_jsSet {K V : Type} [DecidableEq K] (m : List (K × V)) (k : K) (v : V) :
    jsKeys (jsSet m k v) =
      if k ∈ jsKeys m then jsKeys m else jsKeys m ++ [k] := by
  induction m with
  | nil => simp [jsSet, jsKeys]
  | cons head tail ih =>
    obtain ⟨k0, v0⟩ := head
    by_cases h : k0 = k
    · subst h; simp [jsSet, jsKeys]
    · have h' : ¬k = k0 := fun e => h e.symm
      have hl : jsKeys (jsSet ((k0, v0) :: tail) k v) = k0 :: jsKeys (jsSet tail k v) := by
        simp [jsSet, jsKeys, h]
      rw [hl, ih]
      split_ifs <;> simp_all [jsKeys]

theorem jsKeys_nodup_jsSet {K V : Type} [DecidableEq K]
    (m : List (K × V)) (k : K) (v : V) (h : (jsKeys m).Nodup) :
    (jsKeys (jsSet m k v)).Nodup := by
  rw [jsKeys_jsSet]
  by_cases hc : k ∈ jsKeys m
  · simpa [hc] using h
  · simp [hc, List.nodup_append, h]

theorem jsGet_foldl_isSome (items : List StudentSurveyItem) :
    ∀ (m : List (ℕ × StudentSurveyItem)) (i : ℕ),
      (jsGet (items.foldl (fun acc it => jsSet acc it.survey_item_id it) m) i).isSome = true ↔
        (jsGet m i).isSome = true ∨ i ∈ items.map StudentSurveyItem.survey_item_id := by
  induction items with
  | nil => intro m i; simp
  | cons head tail ih =>
    intro m i
    rw [List.foldl_cons, ih]
    by_cases h : head.survey_item_id = i
    · simp [← h, jsGet_jsSet_self]
    · have h' : ¬i = head.survey_item_id := fun e => h e.symm
      rw [jsGet_jsSet_other m head.survey_item_id i head h]
      simp [h']

theorem jsKeys_foldl_nodup (items : List StudentSurveyItem) :
    ∀ m : List (ℕ × StudentSurveyItem), (jsKeys m).Nodup →
      (jsKeys (items.foldl (fun acc it => jsSet acc it.survey_item_id it) m)).Nodup := by
  induction items with
  | nil => intro m h; simpa using h
  | cons head tail ih =>
    intro m h
    exact ih _ (jsKeys_nodup_jsSet m head.survey_item_id head h)

theorem answeredMapOf_isSome (items : List StudentSurveyItem) (i : ℕ) :
    (jsGet (answeredMapOf items) i).isSome = true ↔
      i ∈ items.map StudentSurveyItem.survey_item_id := by
  rw [answeredMapOf, jsGet_foldl_isSome]
  simp [jsGet]

theorem answeredMapOf_length (items : List StudentSurveyItem) :
    (answeredMapOf items).length =
      (items.map StudentSurveyItem.survey_item_id).toFinset.card := by
  have hnd : (jsKeys (answeredMapOf items)).Nodup :=
    jsKeys_foldl_nodup items [] (by simp [jsKeys])
  have hmem : ∀ i, i ∈ jsKeys (answeredMapOf items) ↔
      i ∈ items.map StudentSurveyItem.survey_item_id := by
    intro i
    rw [← jsGet_isSome_iff_mem_keys]
    exact answeredMapOf_isSome items i
  have hfs : (jsKeys (answeredMapOf items)).toFinset =
      (items.map StudentSurveyItem.survey_item_id).toFinset := by
    ext i
    simp only [List.mem_toFinset]
    exact hmem i
  calc (answeredMapOf items).length = (jsKeys (answeredMapOf items)).length := by
        simp [jsKeys]
    _ = (jsKeys (answeredMapOf items)).toFinset.card :=
        (List.toFinset_card_of_nodup hnd).symm
    _ = _ := by rw [hfs]

/-- The completeness condition the claim words for a loaded
configuration and fetched record: the answered item ids are exactly the
configured ids. -/
def coversExactly (conf : SurveyConfig) (items : List StudentSurveyItem) : Prop :=
  ∀ i : ℕ, i ∈ items.map StudentSurveyItem.survey_item_id ↔ i ∈ expectedIdsOf conf

theorem covers_iff (conf : SurveyConfig) (items : List StudentSurveyItem)
    (hE : expectedIdsOf conf ≠ []) :
    (items ≠ [] ∧
      (∀ i ∈ expectedIdsOf conf, (jsGet (answeredMapOf items) i).isSome = true) ∧
      (answeredMapOf items).length = (expectedIdsOf conf).length) ↔
    coversExactly conf items := by
  have hnodup : (expectedIdsOf conf).Nodup := List.nodup_dedup _
  have hEcard : (expectedIdsOf conf).toFinset.card = (expectedIdsOf conf).length :=
    List.toFinset_card_of_nodup hnodup
  constructor
  · rintro ⟨hne, hall, hlen⟩
    have hsub : (expectedIdsOf conf).toFinset ⊆
        (items.map StudentSurveyItem.survey_item_id).toFinset := by
      intro i hi
      rw [List.mem_toFinset] at hi ⊢
      exact (answeredMapOf_isSome items i).mp (hall i hi)
    have hcard : (items.map StudentSurveyItem.survey_item_id).toFinset.card ≤
        (expectedIdsOf conf).toFinset.card := by
      rw [hEcard, ← hlen, answeredMapOf_length]
    have hfs := Finset.eq_of_subset_of_card_le hsub hcard
    intro i
    rw [← List.mem_toFinset, ← List.mem_toFinset (l := expectedIdsOf conf), hfs]
  · intro hcov
    refine ⟨?_, ?_, ?_⟩
    · obtain ⟨i, hi⟩ := List.exists_mem_of_ne_nil _ hE
      have : i ∈ items.map StudentSurveyItem.survey_item_id := (hcov i).mpr hi
      intro hcon
      rw [hcon] at this
      simp at this
    · intro i hi
      exact (answeredMapOf_isSome items i).mpr ((hcov i).mpr hi)
    · have hfs : (items.map StudentSurveyItem.survey_item_id).toFinset =
          (expectedIdsOf conf).toFinset := by
        ext i
        simp only [List.mem_toFinset]
        exact hcov i
      rw [answeredMapOf_length, hfs, hEcard]

theorem ensure_ok_iff (conf : SurveyConfig) (sd : Option StudentSurveyResponse) :
    ensureSurveyComplete (some conf) (Except.ok sd) = true ↔
      (expectedIdsOf conf = [] ∨
        (truthyStr (sd.bind StudentSurveyResponse.id) = true ∧
          coversExactly conf ((sd.map StudentSurveyResponse.items).getD []) ∧
          ∀ it ∈ (sd.map StudentSurveyResponse.items).getD [],
            truthyStr it.frequency = true ∧ truthyStr it.skill = true)) := by
  by_cases hE : expectedIdsOf conf = []
  · simp [ensureSurveyComplete, hE]
  · have hn : (expectedIdsOf conf).length ≠ 0 := by
      simpa [List.length_eq_zero] using hE
    have hpos : 0 < (expectedIdsOf conf).length := Nat.pos_of_ne_zero hn
    have hcode : ensureSurveyComplete (some conf) (Except.ok sd) = true ↔
        (truthyStr (sd.bind StudentSurveyResponse.id) = true ∧
          ((sd.map StudentSurveyResponse.items).getD []) ≠ [] ∧
          (∀ i ∈ expectedIdsOf conf,
            (jsGet (answeredMapOf ((sd.map StudentSurveyResponse.items).getD [])) i).isSome =
              true) ∧
          (answeredMapOf ((sd.map StudentSurveyResponse.items).getD [])).length =
            (expectedIdsOf conf).length ∧
          (∀ it ∈ (sd.map StudentSurveyResponse.items).getD [],
            truthyStr it.frequency = true ∧ truthyStr it.skill = true)) := by
      simp only [ensureSurveyComplete]
      simp [hn, hpos, List.any_eq_false, not_or, List.isEmpty_iff,
        List.length_eq_zero, Option.isSome_iff_ne_none]
      tauto
    rw [hcode, ← covers_iff conf ((sd.map StudentSurveyResponse.items).getD []) hE]
    constructor
    · rintro ⟨h1, h2, h3, h4, h5⟩
      exact Or.inr ⟨h1, ⟨h2, h3, h4⟩, h5⟩
    · rintro (h | ⟨h1, ⟨h2, h3, h4⟩, h5⟩)
      · exact absurd h hE
      · exact ⟨h1, h2, h3, h4, h5⟩

/-- C10 counterexample: the claim's first condition holds — the
configuration lists no survey items — yet `ensureSurveyComplete`
resolves to false because the fetch failed, so the claimed
"resolves to true exactly when ..." biconditional fails at this
input. -/
theorem C10_counterexample :
    expectedIdsOf ⟨[], []⟩ = [] ∧
      ensureSurveyComplete (some ⟨[], []⟩) (Except.error ()) = false :=
  ⟨rfl, rfl⟩

/-- C10 amended: the survey-completeness check resolves to true exactly
when the configuration is loaded, the fetch succeeds, and either no
survey items are configured or the record has a truthy id and the
answered items cover exactly the configured item ids with every
answered item carrying a non-empty frequency and skill; in every other
case — a missing configuration, a fetch failure, or an incomplete
record — it resolves to false, and the navigation guarded by it is not
performed when it is false. -/
theorem C10_completeness_characterization (config : Option SurveyConfig)
    (fetched : Except Unit (Option StudentSurveyResponse)) :
    (ensureSurveyComplete config fetched = true ↔
      ∃ conf sd, config = some conf ∧ fetched = Except.ok sd ∧
        (expectedIdsOf conf = [] ∨
          (truthyStr (sd.bind StudentSurveyResponse.id) = true ∧
            coversExactly conf ((sd.map StudentSurveyResponse.items).getD []) ∧
            ∀ it ∈ (sd.map StudentSurveyResponse.items).getD [],
              truthyStr it.frequency = true ∧ truthyStr it.skill = true))) ∧
      ∀ c rf : Bool, goReviewNavigates c false rf = false := by
  constructor
  · cases config with
    | none => simp [ensureSurveyComplete]
    | some conf =>
      cases fetched with
      | error e => cases e; simp [ensureSurveyComplete]
      | ok sd =>
        rw [ensure_ok_iff conf sd]
        constructor
        · intro h
          exact ⟨conf, sd, rfl, rfl, h⟩
        · rintro ⟨conf', sd', hc, hs, h⟩
          obtain rfl := Option.some.inj hc
          obtain rfl := by injection hs
          exact h
  · intro c rf
    simp [goReviewNavigates]

end AIEval
